import Mathlib

/-!
Verification of the tiled2tscn converter core (`src/converter/core.py`).

The Python source is shallowly embedded below: pure string/arithmetic
helpers become Lean functions on `List Char` / `Nat` / `Int`; the loading
pipeline (which raises exceptions via `throw`) becomes `Except`-valued
functions; uncaught builtin Python exceptions (ValueError, KeyError,
IndexError, NameError) are modelled as `Option.none` / a `ParseFailure`
error.  Machine integers are `Nat`/`Int` (Python has arbitrary precision
integers, so no overflow modelling is needed).
-/

namespace TiledCore

/-! ## Binary string helpers (embedding of the f-string / int(_, 2) code)

`Tilemap.__init__` renders each CSV cell as `f"{tile:b}"`, left-pads it to
32 characters with `"0"`, and slices it.  We embed the strings as
`List Char`. -/

/-- The character emitted for one binary digit. -/
def bitChar (b : Nat) : Char := if b = 1 then '1' else '0'

/-- Fuel-driven recursion for `binChars` (the fuel only serves
termination; `binCharsF_congr` below shows any sufficient fuel agrees). -/
def binCharsF : Nat → Nat → List Char
  | 0, _ => []
  | fuel + 1, t => if t < 2 then [bitChar t] else binCharsF fuel (t / 2) ++ [bitChar (t % 2)]

/-- Characters of Python's `f"{t:b}"` for a non-negative `t`
(most significant bit first, no leading zeros, `0 ↦ "0"`). -/
def binChars (t : Nat) : List Char := binCharsF (t + 1) t

/-- Embedding of `tile_byte = (32 - len(f"{tile:b}")) * "0" + f"{tile:b}"`.
Python's `n * "0"` with negative `n` is `""`; `Nat` subtraction matches. -/
def tileByte (t : Nat) : List Char :=
  List.replicate (32 - (binChars t).length) '0' ++ binChars t

/-- Value of one binary-digit character, `none` for anything else
(Python `int(_, 2)` raises ValueError on such input). -/
def bitVal? (c : Char) : Option Nat :=
  if c = '0' then some 0 else if c = '1' then some 1 else none

/-- Embedding of Python `int(s, 2)` for an unsigned digit string:
`none` models the ValueError on an empty or malformed string. -/
def parseBinNat? (l : List Char) : Option Nat :=
  if l = [] then none
  else l.foldl (fun acc c => acc.bind fun a => (bitVal? c).map fun b => 2 * a + b) (some 0)

/-- Embedding of Python `int(s, 2)` including a possible leading sign. -/
def parseBinInt? (l : List Char) : Option Int :=
  match l with
  | '-' :: rest => (parseBinNat? rest).map fun n => -(n : Int)
  | _ => (parseBinNat? l).map fun n => (n : Int)

/-- The literal `tiled_to_godot_flags` dictionary from the source;
`none` models the KeyError on a key outside the 8 listed triples. -/
def tiledToGodotFlags : List Char → Option (List Char)
  | ['0', '0', '0'] => some ['0', '0', '0']
  | ['1', '0', '1'] => some ['-', '0', '1', '1']
  | ['1', '1', '0'] => some ['0', '1', '1']
  | ['0', '1', '1'] => some ['-', '0', '1', '0']
  | ['1', '0', '0'] => some ['0', '0', '1']
  | ['1', '1', '1'] => some ['-', '0', '0', '1']
  | ['0', '1', '0'] => some ['0', '1', '0']
  | ['0', '0', '1'] => some ['-', '1', '0', '0']
  | _ => none

/-- Embedding of
`rotation_value = int(tiled_to_godot_flags[tile_byte[0:3]] + "0" * 29, 2)`. -/
def rotationValue (t : Nat) : Option Int :=
  (tiledToGodotFlags ((tileByte t).take 3)).bind fun code =>
    parseBinInt? (code ++ List.replicate 29 '0')

/-- Embedding of `tile_value = int(tile_byte[3:], 2)`. -/
def tileValue (t : Nat) : Option Nat :=
  parseBinNat? ((tileByte t).drop 3)

/-! ## Tileset/tilemap data and the id-resolution loop -/

/-- The in-memory `Tileset` object after `Tileset.__init__`
(`shapes` entries are `(tile-local id, object_id, points)` triples, exactly
the tuples the source appends).  `tile_count` is `Int` because the
`hva:tiles` override is parsed with Python `int()` and may be negative. -/
structure Tileset where
  name : String
  tile_size : Nat × Nat
  tile_count : Int
  columns : Nat
  image : String
  full_image_path : String
  shapes : List (Nat × Nat × List (Int × Int))
deriving Repr, DecidableEq

/-- One entry of `Tilemap.tileset_list`: the
`(tileset, firstgid, optimized_firstgid)` tuple from the source. -/
structure TilesetEntry where
  tileset : Tileset
  firstgid : Nat
  optimized_firstgid : Int
deriving Repr, DecidableEq

/-- Embedding of the resolution loop
`for tileset, firstgid, optimized_firstgid in self.tileset_list: ...`.
`none` models the NameError raised when the list is empty and
`global_tile` is read unassigned; on a miss each iteration assigns
`global_tile = 0`, so a non-empty list without a match yields `some 0`. -/
def resolveCell : List TilesetEntry → Nat → Int → Option Int
  | [], _, _ => none
  | e :: rest, v, rot =>
    if (e.firstgid : Int) ≤ v ∧ (v : Int) < e.firstgid + e.tileset.tile_count then
      some ((v : Int) - e.firstgid + 1 + e.optimized_firstgid + rot)
    else
      match resolveCell rest v rot with
      | none => some 0
      | some x => some x

/-- Full per-cell decoding for a parsed non-negative token value. -/
def decodeCell (ts : List TilesetEntry) (t : Nat) : Option Int := do
  let rot ← rotationValue t
  let v ← tileValue t
  resolveCell ts v rot

/-! ## CSV token and layer parsing

Python string splitting/stripping is embedded on `List Char` (all the
source's separators are single characters). -/

/-- Python `s.split(sep)` for a one-character separator: every occurrence
splits, empty pieces are kept, and the result is never empty. -/
def splitChar (sep : Char) : List Char → List (List Char)
  | [] => [[]]
  | c :: rest =>
    let r := splitChar sep rest
    if c = sep then [] :: r
    else (c :: r.headD []) :: r.tail

/-- Whitespace for Python `str.strip()` / `int()` stripping (the ASCII
whitespace that can occur in Tiled documents). -/
def isPySpace (c : Char) : Bool :=
  c = ' ' || c = '\n' || c = '\t' || c = '\r'

/-- Python `s.strip()`. -/
def pyStrip (l : List Char) : List Char :=
  ((l.dropWhile isPySpace).reverse.dropWhile isPySpace).reverse

/-- Value of one decimal digit. -/
def digitVal? (c : Char) : Option Nat :=
  if '0' ≤ c ∧ c ≤ '9' then some (c.toNat - '0'.toNat) else none

/-- Unsigned decimal parse; `none` models ValueError. -/
def parseDecNat? (l : List Char) : Option Nat :=
  if l = [] then none
  else l.foldl (fun acc c => acc.bind fun a => (digitVal? c).map fun d => 10 * a + d) (some 0)

/-- Embedding of Python `int(token)`: surrounding whitespace is stripped,
an optional sign is allowed, then decimal digits.  (Exotic literal forms
such as digit-group underscores are not modelled; Tiled documents never
contain them.) -/
def pyInt? (s : List Char) : Option Int :=
  match pyStrip s with
  | '-' :: rest => (parseDecNat? rest).map fun n => -(n : Int)
  | '+' :: rest => (parseDecNat? rest).map fun n => (n : Int)
  | l => (parseDecNat? l).map fun n => (n : Int)

/-- Embedding of the inner loop `for tile in row.split(",")`.
A token on which `int()` fails is skipped (`except: continue`); a
negative token makes the later `int(tile_byte[3:], 2)` raise
(its digits contain `'-'`), modelled by `none`. -/
def decodeRow (ts : List TilesetEntry) (row : List Char) : Option (List Int) :=
  (splitChar ',' row).foldl
    (fun acc tok =>
      acc.bind fun l =>
        match pyInt? tok with
        | none => some l
        | some t =>
          if t < 0 then none
          else (decodeCell ts t.toNat).map fun g => l ++ [g])
    (some [])

/-- Embedding of the row loop
`for row in xml_layer_data.text.strip().split("\n")`. -/
def decodeLayerData (ts : List TilesetEntry) (text : String) : Option (List (List Int)) :=
  (splitChar '\n' (pyStrip text.data)).foldl
    (fun acc row => acc.bind fun rows => (decodeRow ts row).map fun r => rows ++ [r])
    (some [])

/-! ## Error taxonomy

`throw(msg)` in the source raises a `ConversionError` carrying a message
string; we record the error kind (per the spec's taxonomy) and the
offending property name instead of the literal message.  `ParseFailure`
models an uncaught Python builtin exception (ValueError / KeyError /
IndexError / NameError) escaping the conversion. -/

inductive ConvError where
  | MissingProperty (p : String)
  | InvalidProperty (p : String)
  | UnsupportedEncoding
  | ParseFailure
deriving Repr, DecidableEq

/-! ## Source document model

XML documents are modelled post-parse: attributes the code reads with
`int(...)` on well-formed Tiled output are given their numeric types
directly; custom properties are the `(name, value)` attribute pairs of the
`<properties>` element (absent element = `none`). -/

/-- Python dict built by `{p.attrib["name"]: p.attrib["value"] for p in ...}`
followed by `.get(k)`: on duplicate names the later entry wins. -/
def dictLookup (l : List (String × String)) (k : String) : Option String :=
  (l.reverse.find? (fun p => p.1 == k)).map (·.2)

/-- Python truthiness of an `Option String` as used in
`if not self.properties.get(...)`. -/
def pyTruthy : Option String → Bool
  | none => false
  | some s => s ≠ ""

/-- An `<object>` inside a tile's `<objectgroup>`: the code branches on
`"width" in object.attrib` (rectangle) versus reading
`object[0].attrib["points"]` (polygon). -/
inductive ObjAttr where
  | rect (width height : Int)
  | poly (points : String)
deriving Repr, DecidableEq

structure ObjectDef where
  x : Int
  y : Int
  attr : ObjAttr
deriving Repr, DecidableEq

/-- A `<tile>` element.  An empty `objectgroup` list models both a missing
and a childless `<objectgroup>` element — ElementTree elements are falsy
without children, and `if not objectgroup: continue` skips both. -/
structure TileDef where
  id : Nat
  objectgroup : List ObjectDef
deriving Repr, DecidableEq

structure TilesetDoc where
  name : String
  tilewidth : Nat
  tileheight : Nat
  tilecount : Nat
  columns : Nat
  properties : Option (List (String × String))
  image_source : String
  tiles : List TileDef
deriving Repr, DecidableEq

/-- A `<layer>` element: its name and, when a `<data>` child exists, that
child's `encoding` attribute and text payload. -/
structure LayerEl where
  name : String
  dataEl : Option (Option String × String)
deriving Repr, DecidableEq

/-- A `.tmx` document; tileset references are modelled with the referenced
tileset document inlined together with the `firstgid` attribute. -/
structure TilemapDoc where
  tilewidth : Nat
  tileheight : Nat
  properties : Option (List (String × String))
  tilesets : List (TilesetDoc × Nat)
  layers : List LayerEl
deriving Repr, DecidableEq

/-! ## Shape extraction (`TiledUtil` and the shape loop of `Tileset.__init__`) -/

/-- Embedding of `TiledUtil.square_to_points`. -/
def square_to_points (x y width height : Int) : List (Int × Int) :=
  [(0, 0), (0, width - x), (height - y, width - x), (height - y, 0)]

/-- Embedding of `TiledUtil.object_to_points`: each space-separated token
is split at `","` and both components parsed with `int()`, then offset by
the object's origin.  `none` models the IndexError on a comma-less token
or the ValueError on a non-integer component. -/
def object_to_points (x y : Int) (points_str : String) : Option (List (Int × Int)) :=
  (splitChar ' ' points_str.data).foldl
    (fun acc tok =>
      acc.bind fun l =>
        match splitChar ',' tok with
        | a :: b :: _ =>
          (pyInt? a).bind fun pa => (pyInt? b).map fun pb => l ++ [(pa + x, pb + y)]
        | _ => none)
    (some [])

/-- The shape loop of `Tileset.__init__`, threading the `object_id`
counter; produces the `(tile id, object_id, points)` triples. -/
def extractShapes (tiles : List TileDef) : Option (Nat × List (Nat × Nat × List (Int × Int))) :=
  tiles.foldl
    (fun acc tile =>
      acc.bind fun st =>
        if tile.objectgroup = [] then some st
        else
          tile.objectgroup.foldl
            (fun acc2 ob =>
              acc2.bind fun st2 =>
                let oid := st2.1 + 1
                match ob.attr with
                | .rect w h =>
                  some (oid, st2.2 ++ [(tile.id, oid, square_to_points ob.x ob.y w h)])
                | .poly pts =>
                  (object_to_points ob.x ob.y pts).map fun ps =>
                    (oid, st2.2 ++ [(tile.id, oid, ps)]))
            (some st))
    (some (0, []))

/-- `split(path)[1]`: the basename component used for `self.image`. -/
def pyBasename (s : String) : String := ⟨(splitChar '/' s.data).getLastD []⟩

/-! ## `Tileset.__init__` -/

def loadTileset (d : TilesetDoc) : Except ConvError Tileset := do
  let tile_count : Int ←
    match d.properties with
    | none => pure (d.tilecount : Int)
    | some props =>
      if pyTruthy (dictLookup props "hva:tiles") then
        match (dictLookup props "hva:tiles").bind (fun v => pyInt? v.data) with
        | some n => pure n
        | none => throw (ConvError.InvalidProperty "hva:tiles")
      else pure (d.tilecount : Int)
  match extractShapes d.tiles with
  | none => throw ConvError.ParseFailure
  | some st =>
    pure { name := d.name
           tile_size := (d.tilewidth, d.tileheight)
           tile_count := tile_count
           columns := d.columns
           image := pyBasename d.image_source
           full_image_path := d.image_source
           shapes := st.2 }

/-! ## `Tilemap.__init__` -/

structure Tilemap where
  tile_size : Nat × Nat
  mode : String
  name : String
  tileset_list : List TilesetEntry
  layers : List (String × List (List Int))
deriving Repr, DecidableEq

/-- The tileset loop of `Tilemap.__init__`: each appended entry records
`optimized_firstgid`, the sum of the effective tile counts of the entries
already in the list. -/
def tilesetStep (acc : List TilesetEntry) (p : TilesetDoc × Nat) :
    Except ConvError (List TilesetEntry) := do
  let t ← loadTileset p.1
  pure (acc ++ [{ tileset := t
                  firstgid := p.2
                  optimized_firstgid := (acc.map (fun e => e.tileset.tile_count)).sum }])

def buildTilesetList (ds : List (TilesetDoc × Nat)) : Except ConvError (List TilesetEntry) :=
  ds.foldlM tilesetStep []

/-- The layer loop of `Tilemap.__init__`: layers without a `<data>` child
are skipped, non-CSV encodings are fatal, then the CSV payload is
decoded. -/
def buildLayers (tsl : List TilesetEntry) (ls : List LayerEl) :
    Except ConvError (List (String × List (List Int))) :=
  ls.foldlM
    (fun (acc : List (String × List (List Int))) (l : LayerEl) => do
      match l.dataEl with
      | none => pure acc
      | some (enc, text) =>
        if enc ≠ some "csv" then throw ConvError.UnsupportedEncoding
        else
          match decodeLayerData tsl text with
          | none => throw ConvError.ParseFailure
          | some grid => pure (acc ++ [(l.name, grid)]))
    []

/-- `Tilemap.__init__` in evaluation order: properties element, then the
`hva:mode` check, then `hva:name`, then the tileset loop, then the layer
loop.  (Written as an explicit match tree; each `error` short-circuits
exactly like the raised `ConversionError`.) -/
def loadTilemap (d : TilemapDoc) : Except ConvError Tilemap :=
  match d.properties with
  | none => Except.error (ConvError.MissingProperty "properties")
  | some props =>
    if pyTruthy (dictLookup props "hva:mode") then
      if pyTruthy (dictLookup props "hva:name") then
        match buildTilesetList d.tilesets with
        | Except.error e => Except.error e
        | Except.ok tsl =>
          match buildLayers tsl d.layers with
          | Except.error e => Except.error e
          | Except.ok layers =>
            Except.ok { tile_size := (d.tilewidth, d.tileheight)
                        mode := (dictLookup props "hva:mode").getD ""
                        name := (dictLookup props "hva:name").getD ""
                        tileset_list := tsl
                        layers := layers }
      else Except.error (ConvError.MissingProperty "hva:name")
    else Except.error (ConvError.MissingProperty "hva:mode")

/-! ## `Convert.__init__` — resource serialization

The generated `.tres` / `.tscn` text is modelled structurally: each
emitted `[ext_resource]`, `[sub_resource]`, tile-region record and
tile-data triple is captured with exactly the ids and fields the source
interpolates into the text. -/

/-- A key of the Python `tile_objects` dict.  The source stores under
tuple keys `(set_id, tile_local_id)` but probes with
`tile_objects.get(shapes[0])`, an `int` key, so both key shapes must be
representable. -/
inductive PyKey where
  | i (n : Nat)
  | p (a b : Nat)
deriving Repr, DecidableEq

/-- `dict.get` on `tile_objects`. -/
def dGet (m : List (PyKey × List Nat)) (k : PyKey) : Option (List Nat) :=
  (m.find? (fun e => e.1 == k)).map (·.2)

/-- `dict[k] = v`: overwrite in place, else append (insertion order kept). -/
def dSet (m : List (PyKey × List Nat)) (k : PyKey) (v : List Nat) : List (PyKey × List Nat) :=
  if (m.find? (fun e => e.1 == k)).isSome then
    m.map (fun e => if e.1 == k then (k, v) else e)
  else m ++ [(k, v)]

/-- One emitted `[sub_resource type="ConvexPolygonShape2D" id=...]`. -/
structure SubRes where
  id : Nat
  points : List (Int × Int)
deriving Repr, DecidableEq

/-- One iteration of the "Object collision step" inner loop
(`for shapes in set.shapes`): emits one sub-resource (counter
`sub_resource_id` pre-incremented) and fills `tile_objects`.  When the
probe `tile_objects.get(shapes[0])` hits, the source appends to
`tile_objects[(set_id, shapes[0])]`, which raises KeyError (`none`) if
that tuple key is absent. -/
def collisionShapeStep (set_id : Nat)
    (acc : Option (List SubRes × List (PyKey × List Nat) × Nat))
    (sh : Nat × Nat × List (Int × Int)) :
    Option (List SubRes × List (PyKey × List Nat) × Nat) :=
  acc.bind fun st2 =>
    let sid := st2.2.2 + 1
    let subs := st2.1 ++ [{ id := sid, points := sh.2.2 }]
    if (dGet st2.2.1 (PyKey.i sh.1)).isSome then
      match dGet st2.2.1 (PyKey.p set_id sh.1) with
      | none => none
      | some l => some (subs, dSet st2.2.1 (PyKey.p set_id sh.1) (l ++ [sid]), sid)
    else some (subs, dSet st2.2.1 (PyKey.p set_id sh.1) [sid], sid)

/-- The "Object collision step" double loop over
`enumerate(sets)` / `set.shapes`. -/
def collisionStep (sets : List Tileset) :
    Option (List SubRes × List (PyKey × List Nat) × Nat) :=
  sets.enum.foldl
    (fun acc si => si.2.shapes.foldl (collisionShapeStep si.1) acc)
    (some ([], [], 0))

/-- One emitted tile-region record (`{tile_id}/...` lines).  `shape` is
the `shape = SubResource( ... )` line, present only with collision;
`shapes` lists the sub-resource ids referenced in the `shapes = [...]`
array. -/
structure TileRec where
  tile_id : Nat
  texture : Nat
  region : Nat × Nat × Nat × Nat
  shape : Option Nat
  shapes : List Nat
deriving Repr, DecidableEq

/-- The "Tile step" loop, threading the `total_tiles` counter.  `none`
models the ZeroDivisionError of `set_tile_id % set.columns` when a tileset
has zero columns but a positive tile count; `Int.toNat` on `tile_count`
mirrors `range(0, n)` being empty for negative `n`.  (A stored empty
shape-id list never occurs — entries are created as one-element lists —
so `l.head?` for the primary shape is exact.) -/
def tileRecordStep (si : Nat × Tileset) (m : List (PyKey × List Nat))
    (pr : List TileRec × Nat) (stid : Nat) : List TileRec × Nat :=
  let shapeIds := dGet m (PyKey.p si.1 stid)
  (pr.1 ++ [{ tile_id := pr.2 + 1
              texture := si.1 + 1
              region := (stid % si.2.columns * si.2.tile_size.1,
                         stid / si.2.columns * si.2.tile_size.2,
                         si.2.tile_size.1, si.2.tile_size.2)
              shape := shapeIds.bind List.head?
              shapes := shapeIds.getD [] }], pr.2 + 1)

def tileStep (sets : List Tileset) (m : List (PyKey × List Nat)) :
    Option (List TileRec × Nat) :=
  sets.enum.foldl
    (fun acc si =>
      acc.bind fun st =>
        if si.2.columns = 0 ∧ si.2.tile_count.toNat ≠ 0 then none
        else some ((List.range si.2.tile_count.toNat).foldl (tileRecordStep si m) st))
    (some ([], 0))

/-- The structural content of the generated `.tres` text. -/
structure TresOut where
  ext_resources : List (Nat × String)
  sub_resources : List SubRes
  tiles : List TileRec
  load_steps : Nat
deriving Repr, DecidableEq

def generateTres (sets : List Tileset) : Option TresOut := do
  let exts := sets.foldl
    (fun (pr : List (Nat × String) × Nat) s => (pr.1 ++ [(pr.2 + 1, s.image)], pr.2 + 1))
    ([], 0)
  let cs ← collisionStep sets
  let ts ← tileStep sets cs.2.1
  pure { ext_resources := exts.1
         sub_resources := cs.1
         tiles := ts.1
         load_steps := exts.2 + cs.2.2 + 1 }

/-! ## Scene (`.tscn`) generation -/

/-- Embedding of the row-flattening inner `while` loop over `tile_id`. -/
def flattenRow (row : List Int) (row_id tile_id : Nat) : List (Nat × Int × Nat) :=
  match row with
  | [] => []
  | t :: rest =>
    (if t ≠ 0 then [(tile_id + row_id * 65536, t, 0)] else []) ++
      flattenRow rest row_id (tile_id + 1)

/-- Embedding of the outer `while` loop over `row_id`. -/
def flattenRows (grid : List (List Int)) (row_id : Nat) : List (Nat × Int × Nat) :=
  match grid with
  | [] => []
  | r :: rest => flattenRow r row_id 0 ++ flattenRows rest (row_id + 1)

/-- The flattened sparse `tile_data` triples of one layer. -/
def flattenLayer (grid : List (List Int)) : List (Nat × Int × Nat) :=
  flattenRows grid 0

/-- Python `str.lower()` (faithful on the ASCII names Tiled emits). -/
def pyLower (s : String) : String := ⟨s.data.map Char.toLower⟩

/-- The structural content of the generated `.tscn` text. -/
structure TscnOut where
  tileset_path : String
  root_name : String
  layer_nodes : List (String × (Nat × Nat) × List (Nat × Int × Nat))
deriving Repr, DecidableEq

def generateTscn (tm : Tilemap) : TscnOut :=
  { tileset_path := pyLower tm.mode ++ "_" ++ pyLower tm.name ++ ".tres"
    root_name := tm.mode ++ "_" ++ pyLower tm.name
    layer_nodes := tm.layers.map (fun l => (l.1, tm.tile_size, flattenLayer l.2)) }

structure ConvertOut where
  tscn : TscnOut
  tres : TresOut
  images : List String
deriving Repr, DecidableEq

/-- Embedding of `Convert.__init__`. -/
def convert (d : TilemapDoc) : Except ConvError ConvertOut := do
  let tm ← loadTilemap d
  match generateTres (tm.tileset_list.map (·.tileset)) with
  | none => throw ConvError.ParseFailure
  | some tres =>
    pure { tscn := generateTscn tm
           tres := tres
           images := tm.tileset_list.map (fun e => e.tileset.full_image_path) }

/-! ## Specification-side definitions

These restate what the spec claims, independently of the string-slicing
implementation above, so the theorems can compare the two. -/

/-- Zero-padded binary rendering of fixed width `n`, most significant bit
first (the reference shape for `tileByte`). -/
def bitsLen : Nat → Nat → List Char
  | 0, _ => []
  | n + 1, t => bitsLen n (t / 2) ++ [bitChar (t % 2)]

/-- The spec's rotation-contribution table, stated arithmetically: the
signed replacement code of the flip-flag triple `k` (the top 3 bits of the
cell), shifted left 29 bits, as a 32-bit two's-complement value. -/
def godotRot : Nat → Int
  | 0 => 0
  | 1 => -(2 ^ 31)
  | 2 => 2 ^ 30
  | 3 => -(2 ^ 30)
  | 4 => 2 ^ 29
  | 5 => -(3 * 2 ^ 29)
  | 6 => 3 * 2 ^ 29
  | 7 => -(2 ^ 29)
  | _ => 0

/-- The membership test of the resolution loop:
`tile_value in range(firstgid, firstgid + tileset.tile_count)`. -/
def inRange (e : TilesetEntry) (v : Nat) : Prop :=
  (e.firstgid : Int) ≤ (v : Int) ∧ (v : Int) < (e.firstgid : Int) + e.tileset.tile_count

instance (e : TilesetEntry) (v : Nat) : Decidable (inRange e v) := by
  unfold inRange; infer_instance

/-- The spec's formulation of the sparse layer flattening: row-major over
the grid, keeping only non-zero cells, each as
`(column + row * 65536, value, 0)`. -/
def flattenLayerSpec (grid : List (List Int)) : List (Nat × Int × Nat) :=
  grid.enum.flatMap fun p =>
    (p.2.enum.filter fun q => q.2 != 0).map fun q => (q.1 + p.1 * 65536, q.2, 0)

/-- The declared vertex list of a polygon object as literal point values,
before any translation (the spec's "declared vertices"). -/
def parsedPoints (points_str : String) : Option (List (Int × Int)) :=
  (splitChar ' ' points_str.data).foldl
    (fun acc tok =>
      acc.bind fun l =>
        match splitChar ',' tok with
        | a :: b :: _ => (pyInt? a).bind fun pa => (pyInt? b).map fun pb => l ++ [(pa, pb)]
        | _ => none)
    (some [])

/-! ## Concrete documents used by witnesses and counterexamples -/

/-- A plain 4-tile tileset document with no custom properties. -/
def exTilesetDoc : TilesetDoc :=
  { name := "t", tilewidth := 16, tileheight := 16, tilecount := 4, columns := 2
    properties := none, image_source := "img.png", tiles := [] }

/-- The spec's concrete scenario: one tileset of 4 tiles with
`firstgid = 1` and a single 2×2 CSV layer `"1,0\n0,2"`. -/
def exTilemapDoc : TilemapDoc :=
  { tilewidth := 16, tileheight := 16
    properties := some [("hva:mode", "FFA"), ("hva:name", "Arena")]
    tilesets := [(exTilesetDoc, 1)]
    layers := [{ name := "L", dataEl := some (some "csv", "1,0\n0,2") }] }

/-- A tileset document whose tile 0 carries two collision objects. -/
def exTwoShapeDoc : TilesetDoc :=
  { exTilesetDoc with
    tiles := [{ id := 0
                objectgroup := [{ x := 0, y := 0, attr := .rect 16 16 },
                                { x := 0, y := 0, attr := .rect 8 8 }] }] }

/-- A tileset document with one polygon collision object whose declared
vertices reach outside the 16×16 tile bounds. -/
def exPolyDoc : TilesetDoc :=
  { exTilesetDoc with
    tiles := [{ id := 0
                objectgroup := [{ x := 0, y := 0, attr := .poly "20,-5 0,0 3,3" }] }] }

/-- A tileset document with a single rectangle collision object. -/
def exRectDoc : TilesetDoc :=
  { exTilesetDoc with
    tiles := [{ id := 0, objectgroup := [{ x := 2, y := 3, attr := .rect 10 8 }] }] }

/-- A tileset document overriding its declared tile count of 4 with the
`hva:tiles` custom property value "7". -/
def exOverrideDoc : TilesetDoc :=
  { exTilesetDoc with properties := some [("hva:tiles", "7")] }

/-- Like `exOverrideDoc` but with a non-integer override value. -/
def exBadOverrideDoc : TilesetDoc :=
  { exTilesetDoc with properties := some [("hva:tiles", "x7")] }

/-- Like `exOverrideDoc` but with an empty (falsy) override value, which
does not parse as an integer either. -/
def exEmptyOverrideDoc : TilesetDoc :=
  { exTilesetDoc with properties := some [("hva:tiles", "")] }

/-- A tilemap document with both mandatory properties, no declared
tilesets, and a single one-cell CSV layer `"0"`. -/
def exNoTilesetDoc : TilemapDoc :=
  { tilewidth := 16, tileheight := 16
    properties := some [("hva:mode", "FFA"), ("hva:name", "Arena")]
    tilesets := []
    layers := [{ name := "L", dataEl := some (some "csv", "0") }] }

/-- A tilemap document missing the `hva:name` custom property. -/
def exNoNameDoc : TilemapDoc :=
  { exTilemapDoc with properties := some [("hva:mode", "FFA")] }

/-- The loaded form of `exTilesetDoc`, used to build concrete
`TilesetEntry` values. -/
def exTileset : Tileset :=
  { name := "t", tile_size := (16, 16), tile_count := 4, columns := 2
    image := "img.png", full_image_path := "img.png", shapes := [] }

/-- A concrete tileset entry: 4 tiles starting at source id 1, first in
the merged space. -/
def exEntry : TilesetEntry :=
  { tileset := exTileset, firstgid := 1, optimized_firstgid := 0 }

/-- A minimal loaded tileset — one tile, one column, one one-point
collision shape — used to instantiate serializer theorems. -/
def exTinyTileset : Tileset :=
  { name := "t", tile_size := (16, 16), tile_count := 1, columns := 1
    image := "img.png", full_image_path := "img.png"
    shapes := [(0, 1, [(0, 0)])] }

/-! ## Lemmas: binary rendering and parsing -/

theorem binCharsF_congr (t : Nat) : ∀ fuel fuel', t < fuel → t < fuel' →
    binCharsF fuel t = binCharsF fuel' t := by
  induction t using Nat.strong_induction_on with
  | _ t ih =>
    intro fuel fuel' h h'
    match fuel, fuel' with
    | f + 1, f' + 1 =>
      by_cases h2 : t < 2
      · simp [binCharsF, h2]
      · have hd : t / 2 < t := Nat.div_lt_self (by omega) (by omega)
        simp only [binCharsF, if_neg h2]
        rw [ih (t / 2) hd f f' (by omega) (by omega)]

theorem binChars_unfold (t : Nat) :
    binChars t = if t < 2 then [bitChar t] else binChars (t / 2) ++ [bitChar (t % 2)] := by
  show binCharsF (t + 1) t = _
  by_cases h2 : t < 2
  · simp [binCharsF, h2]
  · have hd : t / 2 < t := Nat.div_lt_self (by omega) (by omega)
    simp only [binCharsF, if_neg h2]
    rw [binCharsF_congr (t / 2) t (t / 2 + 1) (by omega) (by omega)]
    rfl

theorem bitsLen_zero (n : Nat) : bitsLen n 0 = List.replicate n '0' := by
  induction n with
  | zero => rfl
  | succ n ih => simp [bitsLen, ih, List.replicate_succ', bitChar]

theorem bitsLen_length (n t : Nat) : (bitsLen n t).length = n := by
  induction n generalizing t with
  | zero => rfl
  | succ n ih => simp [bitsLen, ih]

theorem bitsLen_eq_pad : ∀ n t, 1 ≤ n → t < 2 ^ n →
    bitsLen n t = List.replicate (n - (binChars t).length) '0' ++ binChars t := by
  intro n
  induction n with
  | zero => omega
  | succ n ih =>
    intro t _ h2
    by_cases ht : t < 2
    · have hb : binChars t = [bitChar t] := by rw [binChars_unfold]; simp [ht]
      have hd : t / 2 = 0 := by omega
      have hm : t % 2 = t := by omega
      simp [bitsLen, hd, hm, bitsLen_zero, hb, List.replicate_succ']
    · have hn1 : 1 ≤ n := by
        rcases Nat.eq_zero_or_pos n with h | h
        · subst h; norm_num at h2; omega
        · omega
      have hdiv : t / 2 < 2 ^ n := by
        have hp : 2 ^ (n + 1) = 2 ^ n * 2 := pow_succ 2 n
        exact (Nat.div_lt_iff_lt_mul (by omega)).mpr (by omega)
      have hb : binChars t = binChars (t / 2) ++ [bitChar (t % 2)] := by
        rw [binChars_unfold]; simp [ht]
      have hlen : (binChars t).length = (binChars (t / 2)).length + 1 := by
        rw [hb]; simp
      calc bitsLen (n + 1) t
          = bitsLen n (t / 2) ++ [bitChar (t % 2)] := rfl
        _ = (List.replicate (n - (binChars (t / 2)).length) '0' ++ binChars (t / 2))
              ++ [bitChar (t % 2)] := by rw [ih (t / 2) hn1 hdiv]
        _ = List.replicate (n - (binChars (t / 2)).length) '0' ++ binChars t := by
              rw [hb, List.append_assoc]
        _ = List.replicate (n + 1 - (binChars t).length) '0' ++ binChars t := by
              rw [hlen, Nat.succ_sub_succ]

theorem tileByte_eq (t : Nat) (h : t < 2 ^ 32) : tileByte t = bitsLen 32 t :=
  (bitsLen_eq_pad 32 t (by norm_num) h).symm

theorem tileByte_length (t : Nat) (h : t < 2 ^ 32) : (tileByte t).length = 32 := by
  rw [tileByte_eq t h, bitsLen_length]

theorem bitsLen_add (a : Nat) : ∀ b t, bitsLen (a + b) t = bitsLen a (t / 2 ^ b) ++ bitsLen b (t % 2 ^ b) := by
  intro b
  induction b with
  | zero => intro t; simp [bitsLen]
  | succ b ih =>
    intro t
    have h1 : a + (b + 1) = (a + b) + 1 := by omega
    have hdd : t / 2 / 2 ^ b = t / 2 ^ (b + 1) := by
      rw [Nat.div_div_eq_div_mul]
      congr 1
      rw [pow_succ, Nat.mul_comm]
    have hmd : t % 2 ^ (b + 1) / 2 = t / 2 % 2 ^ b := by
      rw [Nat.div_mod_eq_mod_mul_div t 2 (2 ^ b), pow_succ, Nat.mul_comm]
    have hmm : t % 2 ^ (b + 1) % 2 = t % 2 := by
      exact Nat.mod_mod_of_dvd t (dvd_pow_self 2 (Nat.succ_ne_zero b))
    rw [h1]
    show bitsLen (a + b) (t / 2) ++ [bitChar (t % 2)] = _
    rw [ih (t / 2)]
    show _ = bitsLen a (t / 2 ^ (b + 1)) ++ (bitsLen b (t % 2 ^ (b + 1) / 2) ++ [bitChar (t % 2 ^ (b + 1) % 2)])
    rw [hdd, hmd, hmm, List.append_assoc]

theorem foldl_bits (n : Nat) : ∀ (t a : Nat),
    (bitsLen n t).foldl (fun acc c => acc.bind fun x => (bitVal? c).map fun b => 2 * x + b) (some a)
      = some (a * 2 ^ n + t % 2 ^ n) := by
  induction n with
  | zero => intro t a; simp [bitsLen, Nat.mod_one]
  | succ n ih =>
    intro t a
    show ((bitsLen n (t / 2)) ++ [bitChar (t % 2)]).foldl _ _ = _
    rw [List.foldl_append, ih (t / 2) a]
    have h01 : t % 2 = 0 ∨ t % 2 = 1 := by omega
    have hb : bitVal? (bitChar (t % 2)) = some (t % 2) := by
      rcases h01 with h | h <;> simp [h, bitChar, bitVal?]
    have hsplit : t % 2 ^ (n + 1) = t % 2 + 2 * (t / 2 % 2 ^ n) := by
      have hm := @Nat.mod_mul 2 (2 ^ n) t
      rw [pow_succ, Nat.mul_comm (2 ^ n) 2]
      omega
    simp only [List.foldl_cons, List.foldl_nil, hb]
    simp only [Option.some_bind, Option.map_some']
    rw [hsplit, pow_succ]
    congr 1
    ring

theorem parseBinNat?_bitsLen (n t : Nat) (hn : n ≠ 0) :
    parseBinNat? (bitsLen n t) = some (t % 2 ^ n) := by
  have hne : bitsLen n t ≠ [] := by
    intro h
    have := bitsLen_length n t
    rw [h] at this
    simp at this
    omega
  unfold parseBinNat?
  rw [if_neg hne, foldl_bits n t 0]
  simp

theorem tileValue_eq (t : Nat) (h : t < 2 ^ 32) : tileValue t = some (t % 2 ^ 29) := by
  unfold tileValue
  rw [tileByte_eq t h, show (32 : Nat) = 3 + 29 from rfl, bitsLen_add 3 29 t]
  rw [List.drop_left' (bitsLen_length 3 (t / 2 ^ 29))]
  rw [parseBinNat?_bitsLen 29 _ (by norm_num)]
  congr 1
  exact Nat.mod_mod_of_dvd t dvd_rfl

theorem tileByte_take3 (t : Nat) (h : t < 2 ^ 32) :
    (tileByte t).take 3 = bitsLen 3 (t / 2 ^ 29) := by
  rw [tileByte_eq t h, show (32 : Nat) = 3 + 29 from rfl, bitsLen_add 3 29 t]
  rw [List.take_left' (bitsLen_length 3 (t / 2 ^ 29))]

theorem rotationValue_eq (t : Nat) (h : t < 2 ^ 32) :
    rotationValue t = some (godotRot (t / 2 ^ 29)) := by
  unfold rotationValue
  rw [tileByte_take3 t h]
  have hk : t / 2 ^ 29 < 8 := by
    have h8 : (2 : Nat) ^ 32 = 2 ^ 29 * 8 := by norm_num
    exact (Nat.div_lt_iff_lt_mul (by positivity)).mpr (by omega)
  set k := t / 2 ^ 29 with hkdef
  clear_value k
  interval_cases k <;> decide

/-! ## Lemmas: the resolution loop -/

theorem resolveCell_cons (e : TilesetEntry) (rest : List TilesetEntry) (v : Nat) (rot : Int) :
    resolveCell (e :: rest) v rot =
      if inRange e v then some ((v : Int) - e.firstgid + 1 + e.optimized_firstgid + rot)
      else match resolveCell rest v rot with
           | none => some 0
           | some x => some x := rfl

theorem resolveCell_first_match :
    ∀ (pre : List TilesetEntry) (e : TilesetEntry) (post : List TilesetEntry) (v : Nat) (rot : Int),
    (∀ e' ∈ pre, ¬ inRange e' v) → inRange e v →
    resolveCell (pre ++ e :: post) v rot =
      some ((v : Int) - e.firstgid + 1 + e.optimized_firstgid + rot) := by
  intro pre
  induction pre with
  | nil =>
    intro e post v rot _ he
    rw [List.nil_append, resolveCell_cons, if_pos he]
  | cons hd tl ih =>
    intro e post v rot hpre he
    have hhd : ¬ inRange hd v := hpre hd (List.mem_cons_self hd tl)
    rw [List.cons_append, resolveCell_cons, if_neg hhd,
      ih e post v rot (fun e' h' => hpre e' (List.mem_cons_of_mem hd h')) he]

theorem resolveCell_no_match :
    ∀ (ts : List TilesetEntry) (v : Nat) (rot : Int), ts ≠ [] →
    (∀ e ∈ ts, ¬ inRange e v) → resolveCell ts v rot = some 0 := by
  intro ts
  induction ts with
  | nil => intro v rot h; exact absurd rfl h
  | cons hd tl ih =>
    intro v rot _ hall
    have hhd : ¬ inRange hd v := hall hd (List.mem_cons_self hd tl)
    rw [resolveCell_cons, if_neg hhd]
    match htl : tl with
    | [] => rfl
    | t' :: tl' =>
      rw [ih v rot (by simp) (fun e h => hall e (List.mem_cons_of_mem hd h))]

theorem decodeCell_eq (ts : List TilesetEntry) (t : Nat) (h : t < 2 ^ 32) :
    decodeCell ts t = resolveCell ts (t % 2 ^ 29) (godotRot (t / 2 ^ 29)) := by
  unfold decodeCell
  rw [rotationValue_eq t h, tileValue_eq t h]
  rfl

/-! ## C1 -/

/-- C1: a CSV cell token with non-negative value `t < 2^32` is rendered as
a 32-character zero-padded binary string; its first 3 characters are
mapped through the fixed flag table, whose signed replacement code
followed by 29 zero bits is the rotation contribution `godotRot (t/2^29)`
(a value in the 32-bit two's-complement range); the remaining 29
characters decode to the raw tile value `t % 2^29`; and whenever the raw
value falls in some declared tileset's range (first match in declaration
order), the final cell value is the arithmetic sum of the resolved id and
the rotation contribution. -/
theorem c1_cell_decoding (t : Nat) (ht : t < 2 ^ 32) :
    (tileByte t).length = 32 ∧
    rotationValue t = some (godotRot (t / 2 ^ 29)) ∧
    (-(2 ^ 31) ≤ godotRot (t / 2 ^ 29) ∧ godotRot (t / 2 ^ 29) < 2 ^ 31) ∧
    tileValue t = some (t % 2 ^ 29) ∧
    (∀ (pre : List TilesetEntry) (e : TilesetEntry) (post : List TilesetEntry),
      (∀ e' ∈ pre, ¬ inRange e' (t % 2 ^ 29)) → inRange e (t % 2 ^ 29) →
      decodeCell (pre ++ e :: post) t =
        some ((((t % 2 ^ 29 : Nat) : Int) - e.firstgid + 1 + e.optimized_firstgid)
          + godotRot (t / 2 ^ 29))) := by
  refine ⟨tileByte_length t ht, rotationValue_eq t ht, ?_, tileValue_eq t ht, ?_⟩
  · have hk : t / 2 ^ 29 < 8 := by
      have h8 : (2 : Nat) ^ 32 = 2 ^ 29 * 8 := by norm_num
      exact (Nat.div_lt_iff_lt_mul (by positivity)).mpr (by omega)
    set k := t / 2 ^ 29 with hkdef
    clear_value k
    interval_cases k <;> constructor <;> decide
  · intro pre e post hpre he
    rw [decodeCell_eq (pre ++ e :: post) t ht,
      resolveCell_first_match pre e post (t % 2 ^ 29) (godotRot (t / 2 ^ 29)) hpre he]

/-- Witness for C1 at `t = 2^31 + 3` (flip-horizontal flag set, raw id 3)
against a single 4-tile tileset with `firstgid = 1`. -/
theorem c1_witness :
    (2 ^ 31 + 3 : Nat) < 2 ^ 32 ∧
    decodeCell [exEntry] (2 ^ 31 + 3) = some ((3 - 1 + 1 + 0) + 2 ^ 29) := by
  refine ⟨by norm_num, ?_⟩
  have h := (c1_cell_decoding (2 ^ 31 + 3) (by norm_num)).2.2.2.2
  have h5 : ((2 ^ 31 + 3 : Nat) % 2 ^ 29) = 3 := by norm_num
  have hr : ((2 ^ 31 + 3 : Nat) / 2 ^ 29) = 4 := by norm_num
  have hm := h [] exEntry [] (by intro e' h'; simp at h') (by rw [h5]; decide)
  rw [List.nil_append] at hm
  rw [hm, h5, hr]
  decide

/-! ## C7 -/

/-- C7 (amended): with at least one declared tileset, a cell whose low
29 bits are 0 decodes to exactly 0 whatever its orientation bits (given
the Tiled contract that every `firstgid` is at least 1), and a cell whose
raw tile value lies outside every declared tileset's range also decodes
to exactly 0; in both cases the decoder returns a value (`some`) rather
than raising.  Both provisos are necessary: see `c7_counterexample`. -/
theorem c7_zero_and_unresolved_cells (ts : List TilesetEntry) (hne : ts ≠ []) :
    (∀ t : Nat, t < 2 ^ 32 → t % 2 ^ 29 = 0 → (∀ e ∈ ts, 1 ≤ e.firstgid) →
      decodeCell ts t = some 0) ∧
    (∀ t : Nat, t < 2 ^ 32 → (∀ e ∈ ts, ¬ inRange e (t % 2 ^ 29)) →
      decodeCell ts t = some 0) := by
  constructor
  · intro t ht hz hfg
    rw [decodeCell_eq ts t ht, hz]
    refine resolveCell_no_match ts 0 _ hne ?_
    intro e he hin
    have h1 : 1 ≤ e.firstgid := hfg e he
    have h2 : (e.firstgid : Int) ≤ (0 : Nat) := hin.1
    simp at h2
    omega
  · intro t ht hout
    rw [decodeCell_eq ts t ht]
    exact resolveCell_no_match ts _ _ hne hout

/-- Counterexample to C7 as stated: with no declared tilesets the
resolution loop never assigns `global_tile` and the first decoded cell
reads it unbound (NameError, modelled as `none`) — a raw-0 cell neither
resolves to 0 nor avoids the error, and loading such a document fails
outright; moreover a tileset declared at `firstgid = 0` captures raw
value 0, which then resolves to a non-zero value retaining its
orientation contribution. -/
theorem c7_counterexample :
    decodeCell [] 0 = none ∧
    decodeCell [] 0 ≠ some 0 ∧
    loadTilemap exNoTilesetDoc = Except.error ConvError.ParseFailure ∧
    decodeCell [{ tileset := exTileset, firstgid := 0, optimized_firstgid := 0 }] (2 ^ 31)
      = some (1 + 2 ^ 29) := by
  refine ⟨rfl, by decide, rfl, by decide⟩

/-- Witness for C7: raw value 0 under a flip flag, and raw value 7 outside
the single declared range `[1, 5)`. -/
theorem c7_witness :
    ([exEntry] ≠ [] ∧ decodeCell [exEntry] (2 ^ 31) = some 0) ∧
    decodeCell [exEntry] 7 = some 0 := by
  have h := c7_zero_and_unresolved_cells [exEntry] (by simp)
  refine ⟨⟨by simp, ?_⟩, ?_⟩
  · exact h.1 (2 ^ 31) (by norm_num) (by norm_num) (by decide)
  · refine h.2 7 (by norm_num) ?_
    have h7 : (7 : Nat) % 2 ^ 29 = 7 := by norm_num
    rw [h7]
    decide

/-! ## Partial-sum lemmas for C2 -/

theorem psum_take_le (cs : List Int) (hpos : ∀ c ∈ cs, 0 ≤ c) (i j : Nat) (hij : i ≤ j) :
    (cs.take i).sum ≤ (cs.take j).sum := by
  have hsplit : cs.take j = cs.take i ++ (cs.drop i).take (j - i) := by
    rw [← List.take_add]
    congr 1
    omega
  rw [hsplit, List.sum_append]
  have hp : 0 ≤ ((cs.drop i).take (j - i)).sum :=
    List.sum_nonneg fun x hx => hpos x (List.mem_of_mem_drop (List.mem_of_mem_take hx))
  omega

theorem psum_take_lt (cs : List Int) (hpos : ∀ c ∈ cs, 0 < c) (i j : Nat)
    (hij : i < j) (hj : j ≤ cs.length) :
    (cs.take i).sum < (cs.take j).sum := by
  have hsplit : cs.take j = cs.take i ++ (cs.drop i).take (j - i) := by
    rw [← List.take_add]
    congr 1
    omega
  rw [hsplit, List.sum_append]
  have hne : (cs.drop i).take (j - i) ≠ [] := by
    intro h
    have hlen := congrArg List.length h
    simp [List.length_take, List.length_drop] at hlen
    omega
  have hp : 0 < ((cs.drop i).take (j - i)).sum :=
    List.sum_pos _ (fun x hx => hpos x (List.mem_of_mem_drop (List.mem_of_mem_take hx))) hne
  omega

theorem psum_take_succ (cs : List Int) (i : Nat) (hi : i < cs.length) :
    (cs.take (i + 1)).sum = (cs.take i).sum + cs.get ⟨i, hi⟩ := by
  rw [List.take_succ, List.getElem?_eq_getElem hi, List.sum_append, List.get_eq_getElem]
  simp

theorem psum_locate (cs : List Int) (hpos : ∀ c ∈ cs, 0 < c) :
    ∀ x : Int, 0 ≤ x → x < cs.sum → ∃ i, ∃ hi : i < cs.length,
      (cs.take i).sum ≤ x ∧ x < (cs.take i).sum + cs.get ⟨i, hi⟩ := by
  induction cs with
  | nil =>
    intro x h0 hx
    simp at hx
    omega
  | cons c rest ih =>
    intro x h0 hx
    by_cases hc : x < c
    · exact ⟨0, by simp, by simpa using h0, by simpa using hc⟩
    · push_neg at hc
      have hrest : ∀ c' ∈ rest, 0 < c' := fun c' h => hpos c' (List.mem_cons_of_mem _ h)
      have hx' : x - c < rest.sum := by
        simp [List.sum_cons] at hx
        omega
      obtain ⟨i, hi, h1, h2⟩ := ih hrest (x - c) (by omega) hx'
      refine ⟨i + 1, by simpa using hi, ?_, ?_⟩
      · have htake : (c :: rest).take (i + 1) = c :: rest.take i := rfl
        rw [htake, List.sum_cons]
        omega
      · have htake : (c :: rest).take (i + 1) = c :: rest.take i := rfl
        rw [htake, List.sum_cons, List.get_cons_succ]
        omega

/-! ## The offset invariant of the tileset loop -/

theorem except_ok_bind (a : α) (f : α → Except ConvError β) : (Except.ok a >>= f) = f a := rfl

theorem except_pure_bind (a : α) (f : α → Except ConvError β) :
    ((pure a : Except ConvError α) >>= f) = f a := rfl

theorem except_error_bind (e : ConvError) (f : α → Except ConvError β) :
    ((Except.error e : Except ConvError α) >>= f) = Except.error e := rfl

theorem buildTilesetList_offsets :
    ∀ (ds : List (TilesetDoc × Nat)) (acc l : List TilesetEntry),
    List.foldlM tilesetStep acc ds = Except.ok l →
    (∀ i (hi : i < acc.length), (acc.get ⟨i, hi⟩).optimized_firstgid
      = ((acc.take i).map fun e => e.tileset.tile_count).sum) →
    (∀ i (hi : i < l.length), (l.get ⟨i, hi⟩).optimized_firstgid
      = ((l.take i).map fun e => e.tileset.tile_count).sum) := by
  intro ds
  induction ds with
  | nil =>
    intro acc l h hinv
    rw [List.foldlM_nil] at h
    cases h
    exact hinv
  | cons p ds ih =>
    intro acc l h hinv
    rw [List.foldlM_cons] at h
    cases hload : loadTileset p.1 with
    | error e =>
      unfold tilesetStep at h
      rw [hload] at h
      rw [except_error_bind, except_error_bind] at h
      cases h
    | ok t =>
      unfold tilesetStep at h
      rw [hload] at h
      rw [except_ok_bind, except_pure_bind] at h
      refine ih _ l h ?_
      intro i hi
      have hlen : i < acc.length + 1 := by simpa using hi
      rcases Nat.lt_succ_iff_lt_or_eq.mp hlen with hlt | heq
      · rw [List.get_append i hlt, List.take_append_of_le_length (by omega)]
        exact hinv i hlt
      · subst heq
        rw [List.get_eq_getElem, List.getElem_concat_length acc _ acc.length rfl hi,
          List.take_left]

/-! ## C2 -/

/-- C2: for a successfully loaded tileset list, (i) each entry's merged
offset is the sum of the effective tile counts of the entries declared
before it; (ii) a raw value contained in some range resolves against the
first containing tileset in declaration order, giving
`raw − firstgid + 1 + merged_offset` (plus rotation); (iii) with positive
tile counts the offsets are strictly increasing; (iv) the offset ranges
partition `[0, Σ tile_count)` with no gaps or overlaps. -/
theorem c2_merged_offsets (ds : List (TilesetDoc × Nat)) (tsl : List TilesetEntry)
    (h : buildTilesetList ds = Except.ok tsl) :
    (∀ i (hi : i < tsl.length), (tsl.get ⟨i, hi⟩).optimized_firstgid
      = ((tsl.take i).map fun e => e.tileset.tile_count).sum) ∧
    (∀ (pre : List TilesetEntry) (e : TilesetEntry) (post : List TilesetEntry) (v : Nat) (rot : Int),
      tsl = pre ++ e :: post →
      (∀ e' ∈ pre, ¬ inRange e' v) → inRange e v →
      resolveCell tsl v rot = some ((v : Int) - e.firstgid + 1 + e.optimized_firstgid + rot)) ∧
    ((∀ e ∈ tsl, 0 < e.tileset.tile_count) →
      ∀ i j (hi : i < tsl.length) (hj : j < tsl.length), i < j →
        (tsl.get ⟨i, hi⟩).optimized_firstgid < (tsl.get ⟨j, hj⟩).optimized_firstgid) ∧
    ((∀ e ∈ tsl, 0 < e.tileset.tile_count) →
      ∀ x : Int, 0 ≤ x → x < ((tsl.map fun e => e.tileset.tile_count).sum) →
      ∃! ip : Fin tsl.length,
        (tsl.get ip).optimized_firstgid ≤ x ∧
          x < (tsl.get ip).optimized_firstgid + (tsl.get ip).tileset.tile_count) := by
  have hoff := buildTilesetList_offsets ds [] tsl h (by intro i hi; simp at hi)
  have hoffcs : ∀ k (hk : k < tsl.length),
      (tsl.get ⟨k, hk⟩).optimized_firstgid
        = (((tsl.map fun e => e.tileset.tile_count).take k)).sum := by
    intro k hk
    rw [hoff k hk, List.map_take]
  have hlencs : (tsl.map fun e => e.tileset.tile_count).length = tsl.length := by simp
  have hcnt : ∀ k (hk : k < tsl.length),
      (tsl.map fun e => e.tileset.tile_count).get ⟨k, by omega⟩
        = (tsl.get ⟨k, hk⟩).tileset.tile_count := by
    intro k hk
    simp
  refine ⟨hoff, ?_, ?_, ?_⟩
  · intro pre e post v rot hts hpre he
    rw [hts]
    exact resolveCell_first_match pre e post v rot hpre he
  · intro hpos i j hi hj hij
    have hcs : ∀ c ∈ tsl.map fun e => e.tileset.tile_count, 0 < c := by
      intro c hc
      obtain ⟨e, he, rfl⟩ := List.mem_map.mp hc
      exact hpos e he
    rw [hoffcs i hi, hoffcs j hj]
    exact psum_take_lt _ hcs i j hij (by omega)
  · intro hpos x hx0 hxlt
    have hcs : ∀ c ∈ tsl.map fun e => e.tileset.tile_count, 0 < c := by
      intro c hc
      obtain ⟨e, he, rfl⟩ := List.mem_map.mp hc
      exact hpos e he
    have hcs0 : ∀ c ∈ tsl.map fun e => e.tileset.tile_count, 0 ≤ c :=
      fun c hc => le_of_lt (hcs c hc)
    obtain ⟨i, hic, h1, h2⟩ := psum_locate _ hcs x hx0 hxlt
    have hi : i < tsl.length := by omega
    refine ⟨⟨i, hi⟩, ⟨?_, ?_⟩, ?_⟩
    · rw [hoffcs i hi]
      exact h1
    · rw [hoffcs i hi]
      rw [← hcnt i hi]
      exact h2
    · rintro ⟨j, hj⟩ ⟨hj1, hj2⟩
      apply Fin.ext
      show j = i
      by_contra hne
      have hjc : j < (tsl.map fun e => e.tileset.tile_count).length := by omega
      rw [hoffcs j hj, ← hcnt j hj] at hj2
      rw [hoffcs j hj] at hj1
      rcases Nat.lt_or_ge j i with hlt | hge
      · have e2 := psum_take_succ (tsl.map fun e => e.tileset.tile_count) j hjc
        have e1 : ((tsl.map fun e => e.tileset.tile_count).take (j + 1)).sum
            ≤ ((tsl.map fun e => e.tileset.tile_count).take i).sum :=
          psum_take_le _ hcs0 (j + 1) i (by omega)
        omega
      · have hgt : i < j := by omega
        have e2 := psum_take_succ (tsl.map fun e => e.tileset.tile_count) i (by omega)
        have e1 : ((tsl.map fun e => e.tileset.tile_count).take (i + 1)).sum
            ≤ ((tsl.map fun e => e.tileset.tile_count).take j).sum :=
          psum_take_le _ hcs0 (i + 1) j (by omega)
        omega

/-- Witness for C2: two copies of the 4-tile tileset declared at source
firstgids 1 and 5 — offsets 0 and 4. -/
theorem c2_witness :
    buildTilesetList [(exTilesetDoc, 1), (exTilesetDoc, 5)] =
      Except.ok [⟨exTileset, 1, 0⟩, ⟨exTileset, 5, 4⟩] ∧
    (∀ i (hi : i < ([⟨exTileset, 1, 0⟩, ⟨exTileset, 5, 4⟩] : List TilesetEntry).length),
      (([⟨exTileset, 1, 0⟩, ⟨exTileset, 5, 4⟩] : List TilesetEntry).get ⟨i, hi⟩).optimized_firstgid
        = ((([⟨exTileset, 1, 0⟩, ⟨exTileset, 5, 4⟩] : List TilesetEntry).take i).map
            fun e => e.tileset.tile_count).sum) := by
  have hb : buildTilesetList [(exTilesetDoc, 1), (exTilesetDoc, 5)] =
      Except.ok [⟨exTileset, 1, 0⟩, ⟨exTileset, 5, 4⟩] := by rfl
  exact ⟨hb, (c2_merged_offsets _ _ hb).1⟩

/-! ## C3 -/

theorem flattenRow_eq (row : List Int) : ∀ (rid tid : Nat),
    flattenRow row rid tid
      = ((List.enumFrom tid row).filter fun p => p.2 != 0).map
          fun p => (p.1 + rid * 65536, p.2, 0) := by
  induction row with
  | nil => intro rid tid; simp [flattenRow]
  | cons t rest ih =>
    intro rid tid
    by_cases ht : t = 0
    · simp [flattenRow, ht, ih rid (tid + 1), List.enumFrom]
    · simp [flattenRow, ht, ih rid (tid + 1), List.enumFrom]

theorem flattenRows_eq (grid : List (List Int)) : ∀ rid : Nat,
    flattenRows grid rid
      = (List.enumFrom rid grid).flatMap fun p =>
          (p.2.enum.filter fun q => q.2 != 0).map fun q => (q.1 + p.1 * 65536, q.2, 0) := by
  induction grid with
  | nil => intro rid; simp [flattenRows]
  | cons r rest ih =>
    intro rid
    show flattenRow r rid 0 ++ flattenRows rest (rid + 1) = _
    rw [flattenRow_eq r rid 0, ih (rid + 1)]
    simp [List.enumFrom, List.enum]

/-- C3: the scene's per-layer cell listing is the row-major flattening
that keeps exactly the non-zero cells as `(column + row·65536, value, 0)`
triples; concretely, the 2×2 layer `"1,0\n0,2"` over one 4-tile tileset
with firstgid 1 resolves to `[[1,0],[0,2]]` and is emitted as the triples
`(0,1,0)` and `(65537,2,0)`. -/
theorem c3_scene_flattening :
    (∀ grid : List (List Int), flattenLayer grid = flattenLayerSpec grid) ∧
    (∀ tm : Tilemap, (generateTscn tm).layer_nodes
      = tm.layers.map fun l => (l.1, tm.tile_size, flattenLayerSpec l.2)) ∧
    (loadTilemap exTilemapDoc).map (fun tm => tm.layers)
      = Except.ok [("L", [[1, 0], [0, 2]])] ∧
    (loadTilemap exTilemapDoc).map (fun tm => (generateTscn tm).layer_nodes)
      = Except.ok [("L", (16, 16), [(0, 1, 0), (65537, 2, 0)])] := by
  have hgen : ∀ grid, flattenLayer grid = flattenLayerSpec grid := by
    intro grid
    unfold flattenLayer flattenLayerSpec
    rw [flattenRows_eq grid 0, List.enum_eq_enumFrom]
  refine ⟨hgen, ?_, by rfl, by rfl⟩
  intro tm
  unfold generateTscn
  simp [hgen]

/-! ## C4

The serializer probes `tile_objects.get(shapes[0])` with an `int` key
while all stored keys are `(set_id, tile_id)` tuples, so the probe never
hits and each assignment replaces the tile's shape-id list instead of
appending: only the LAST discovered shape of a tile survives into its
record, and it is also the designated primary shape. -/

/-- C4 (code-bug evidence): on a tileset whose tile 0 owns two collision
objects, both sub-resources (ids 1 and 2) are emitted, yet the tile's
record lists only `[2]` and designates 2 — the last discovered shape, not
the first — as primary; sub-resource id 1 appears in no record. -/
theorem c4_tile_record_keeps_only_last_shape :
    (loadTileset exTwoShapeDoc).map (fun t => t.shapes.map fun sh => (sh.1, sh.2.1))
      = Except.ok [(0, 1), (0, 2)] ∧
    ((loadTileset exTwoShapeDoc).toOption.bind fun t => generateTres [t]).map
        (fun o => (o.sub_resources.map SubRes.id, o.tiles.map fun r => (r.shape, r.shapes)))
      = some ([1, 2], [(some 2, [2]), (none, []), (none, []), (none, [])]) :=
  ⟨rfl, rfl⟩

/-! ## C5 -/

theorem collisionShapeStep_none (set_id : Nat) (shs : List (Nat × Nat × List (Int × Int))) :
    shs.foldl (collisionShapeStep set_id) none = none := by
  induction shs with
  | nil => rfl
  | cons sh rest ih => simpa [collisionShapeStep] using ih

theorem collisionOuter_none (esets : List (Nat × Tileset)) :
    esets.foldl (fun acc si => si.2.shapes.foldl (collisionShapeStep si.1) acc) none = none := by
  induction esets with
  | nil => rfl
  | cons si rest ih => simpa [collisionShapeStep_none] using ih

theorem collisionShapeStep_shape (set_id : Nat) (subs : List SubRes)
    (m : List (PyKey × List Nat)) (sid : Nat) (sh : Nat × Nat × List (Int × Int)) :
    collisionShapeStep set_id (some (subs, m, sid)) sh = none ∨
    ∃ m', collisionShapeStep set_id (some (subs, m, sid)) sh
      = some (subs ++ [{ id := sid + 1, points := sh.2.2 }], m', sid + 1) := by
  unfold collisionShapeStep
  by_cases hprobe : (dGet m (PyKey.i sh.1)).isSome
  · cases hd : dGet m (PyKey.p set_id sh.1) with
    | none => left; simp [hprobe, hd]
    | some l =>
      right
      exact ⟨dSet m (PyKey.p set_id sh.1) (l ++ [sid + 1]), by simp [hprobe, hd]⟩
  · right
    exact ⟨dSet m (PyKey.p set_id sh.1) [sid + 1], by simp [hprobe]⟩

theorem collisionShapes_char :
    ∀ (shs : List (Nat × Nat × List (Int × Int))) (set_id : Nat) (subs : List SubRes)
      (m : List (PyKey × List Nat)) (sid : Nat) (res : List SubRes × List (PyKey × List Nat) × Nat),
    shs.foldl (collisionShapeStep set_id) (some (subs, m, sid)) = some res →
    res.1 = subs ++ (List.enumFrom sid shs).map (fun p => { id := p.1 + 1, points := p.2.2.2 }) ∧
    res.2.2 = sid + shs.length := by
  intro shs
  induction shs with
  | nil =>
    intro set_id subs m sid res h
    cases h
    simp
  | cons sh rest ih =>
    intro set_id subs m sid res h
    rw [List.foldl_cons] at h
    rcases collisionShapeStep_shape set_id subs m sid sh with hn | ⟨m', hs⟩
    · rw [hn, collisionShapeStep_none] at h
      cases h
    · rw [hs] at h
      obtain ⟨h1, h2⟩ := ih set_id _ m' (sid + 1) res h
      refine ⟨?_, by simp at h2 ⊢; omega⟩
      rw [h1]
      simp [List.enumFrom]

theorem collisionSets_char :
    ∀ (esets : List (Nat × Tileset)) (st res : List SubRes × List (PyKey × List Nat) × Nat),
    esets.foldl (fun acc si => si.2.shapes.foldl (collisionShapeStep si.1) acc) (some st)
      = some res →
    res.1 = st.1 ++ (List.enumFrom st.2.2 (esets.flatMap fun si => si.2.shapes)).map
        (fun p => { id := p.1 + 1, points := p.2.2.2 }) ∧
    res.2.2 = st.2.2 + (esets.flatMap fun si => si.2.shapes).length := by
  intro esets
  induction esets with
  | nil =>
    intro st res h
    cases h
    simp
  | cons si rest ih =>
    intro st res h
    rw [List.foldl_cons] at h
    cases hstep : si.2.shapes.foldl (collisionShapeStep si.1) (some st) with
    | none =>
      rw [hstep, collisionOuter_none] at h
      cases h
    | some st' =>
      rw [hstep] at h
      obtain ⟨h1, h2⟩ := collisionShapes_char si.2.shapes si.1 st.1 st.2.1 st.2.2 st' hstep
      obtain ⟨hr1, hr2⟩ := ih st' res h
      constructor
      · rw [hr1, h1, h2, List.flatMap_cons, List.enumFrom_append, List.map_append,
          List.append_assoc]
      · rw [hr2, h2]
        simp
        omega

theorem option_some_bind (a : α) (f : α → Option β) : (some a >>= f) = f a := rfl

theorem option_pure (a : α) : (pure a : Option α) = some a := rfl

theorem extFold_char :
    ∀ (sets : List Tileset) (init : List (Nat × String)) (k : Nat),
    sets.foldl (fun (pr : List (Nat × String) × Nat) s => (pr.1 ++ [(pr.2 + 1, s.image)], pr.2 + 1))
      (init, k)
      = (init ++ (List.enumFrom k sets).map fun si => (si.1 + 1, si.2.image), k + sets.length) := by
  intro sets
  induction sets with
  | nil => intro init k; simp
  | cons s rest ih =>
    intro init k
    rw [List.foldl_cons, ih (init ++ [(k + 1, s.image)]) (k + 1)]
    simp [List.enumFrom]
    omega

theorem enumFrom_map_idsucc (l : List α) : ∀ k : Nat,
    (List.enumFrom k l).map (fun p => p.1 + 1) = List.range' (k + 1) l.length := by
  induction l with
  | nil => intro k; rfl
  | cons a rest ih =>
    intro k
    show (k + 1) :: (List.enumFrom (k + 1) rest).map (fun p => p.1 + 1) = _
    rw [ih (k + 1), List.length_cons, List.range'_succ]

/-- C5 (amended): external-resource ids are sequential from 1 in tileset
order, and the collision sub-resource ids are sequential from 1 — their
own id namespace, starting at 1 regardless of the image count — in
tileset-then-discovery order; `load_steps` is
image count + shape count + 1. -/
theorem c5_sequential_resource_ids (sets : List Tileset) (o : TresOut)
    (h : generateTres sets = some o) :
    o.ext_resources = (List.enumFrom 0 sets).map (fun si => (si.1 + 1, si.2.image)) ∧
    o.ext_resources.map Prod.fst = List.range' 1 sets.length ∧
    o.sub_resources = (List.enumFrom 0 (sets.flatMap fun s => s.shapes)).map
        (fun p => { id := p.1 + 1, points := p.2.2.2 }) ∧
    o.sub_resources.map SubRes.id = List.range' 1 (sets.flatMap fun s => s.shapes).length ∧
    o.load_steps = sets.length + (sets.flatMap fun s => s.shapes).length + 1 := by
  unfold generateTres at h
  rw [extFold_char sets [] 0] at h
  cases hc : collisionStep sets with
  | none => rw [hc] at h; cases h
  | some cs =>
    rw [hc, option_some_bind] at h
    cases ht : tileStep sets cs.2.1 with
    | none => rw [ht] at h; cases h
    | some ts =>
      rw [ht, option_some_bind, option_pure] at h
      cases h
      unfold collisionStep at hc
      rw [List.enum_eq_enumFrom] at hc
      obtain ⟨h1, h2⟩ := collisionSets_char (List.enumFrom 0 sets) ([], [], 0) cs hc
      have hflat : (List.enumFrom 0 sets).flatMap (fun si => si.2.shapes)
          = sets.flatMap fun s => s.shapes := by
        clear h1 h2 hc ht
        generalize 0 = k
        induction sets generalizing k with
        | nil => rfl
        | cons s rest ih => simp [List.enumFrom, List.flatMap_cons, ih]
      rw [hflat] at h1 h2
      refine ⟨by simp, ?_, by simpa using h1, ?_, ?_⟩
      · simp [List.map_map]
        have := enumFrom_map_idsucc sets 0
        simpa [Function.comp] using this
      · rw [h1]
        simp only [List.nil_append, List.map_map]
        have := enumFrom_map_idsucc (sets.flatMap fun s => s.shapes) 0
        simpa [Function.comp] using this
      · simp [h2]

/-- Counterexample to C5 as stated: with k = 1 tileset image and one
collision shape, the first sub-resource id is 1, not k + 1 = 2. -/
theorem c5_counterexample :
    (generateTres [exTinyTileset]).map
        (fun o => (o.ext_resources.map Prod.fst, o.sub_resources.map SubRes.id))
      = some ([1], [1]) ∧
    (generateTres [exTinyTileset]).map (fun o => o.sub_resources.map SubRes.id)
      ≠ some [1 + 1] := by
  constructor
  · rfl
  · decide

/-- Witness for C5 (amended) at the one-tile, one-shape tileset. -/
theorem c5_witness :
    generateTres [exTinyTileset]
      = some { ext_resources := [(1, "img.png")]
               sub_resources := [{ id := 1, points := [(0, 0)] }]
               tiles := [{ tile_id := 1, texture := 1, region := (0, 0, 16, 16)
                           shape := some 1, shapes := [1] }]
               load_steps := 3 } ∧
    ([{ id := 1, points := [(0, 0)] }] : List SubRes).map SubRes.id
      = List.range' 1 ([exTinyTileset].flatMap fun s => s.shapes).length := by
  have h : generateTres [exTinyTileset]
      = some { ext_resources := [(1, "img.png")]
               sub_resources := [{ id := 1, points := [(0, 0)] }]
               tiles := [{ tile_id := 1, texture := 1, region := (0, 0, 16, 16)
                           shape := some 1, shapes := [1] }]
               load_steps := 3 } := by rfl
  exact ⟨h, (c5_sequential_resource_ids [exTinyTileset] _ h).2.2.2.1⟩

/-! ## C6

`TiledUtil.object_to_points` translates each declared vertex by the
object's origin but performs NO clamping, so stored polygon points can
leave the tile bounds. -/

theorem c6_obj_foldl_none (x y : Int) : ∀ toks : List (List Char),
    toks.foldl
      (fun acc tok =>
        acc.bind fun l =>
          match splitChar ',' tok with
          | a :: b :: _ =>
            (pyInt? a).bind fun pa => (pyInt? b).map fun pb => l ++ [(pa + x, pb + y)]
          | _ => none)
      none = none := by
  intro toks
  induction toks with
  | nil => rfl
  | cons tok rest ih => simpa using ih

theorem c6_spec_foldl_none : ∀ toks : List (List Char),
    toks.foldl
      (fun acc tok =>
        acc.bind fun l =>
          match splitChar ',' tok with
          | a :: b :: _ => (pyInt? a).bind fun pa => (pyInt? b).map fun pb => l ++ [(pa, pb)]
          | _ => none)
      none = none := by
  intro toks
  induction toks with
  | nil => rfl
  | cons tok rest ih => simpa using ih

theorem c6_translation_aux (x y : Int) : ∀ (toks : List (List Char)) (acc : List (Int × Int)),
    toks.foldl
      (fun acc2 tok =>
        acc2.bind fun l =>
          match splitChar ',' tok with
          | a :: b :: _ =>
            (pyInt? a).bind fun pa => (pyInt? b).map fun pb => l ++ [(pa + x, pb + y)]
          | _ => none)
      (some (acc.map fun p => (p.1 + x, p.2 + y)))
    = Option.map (List.map fun p => (p.1 + x, p.2 + y))
        (toks.foldl
          (fun acc2 tok =>
            acc2.bind fun l =>
              match splitChar ',' tok with
              | a :: b :: _ =>
                (pyInt? a).bind fun pa => (pyInt? b).map fun pb => l ++ [(pa, pb)]
              | _ => none)
          (some acc)) := by
  intro toks
  induction toks with
  | nil => intro acc; simp
  | cons tok rest ih =>
    intro acc
    rw [List.foldl_cons, List.foldl_cons]
    cases hsp : splitChar ',' tok with
    | nil => simp [hsp, c6_obj_foldl_none, c6_spec_foldl_none]
    | cons a tl =>
      cases tl with
      | nil => simp [hsp, c6_obj_foldl_none, c6_spec_foldl_none]
      | cons b _ =>
        cases hpa : pyInt? a with
        | none => simp [hsp, hpa, c6_obj_foldl_none, c6_spec_foldl_none]
        | some pa =>
          cases hpb : pyInt? b with
          | none => simp [hsp, hpa, hpb, c6_obj_foldl_none, c6_spec_foldl_none]
          | some pb =>
            have hmap : (acc.map fun p => (p.1 + x, p.2 + y)) ++ [(pa + x, pb + y)]
                = (acc ++ [(pa, pb)]).map fun p => (p.1 + x, p.2 + y) := by
              simp
            simp only [hsp, hpa, hpb, Option.some_bind, Option.map_some']
            rw [hmap]
            exact ih (acc ++ [(pa, pb)])

/-- C6 (amended): the points stored for a polygon collision object are the
declared vertices each translated by the object's origin `(x, y)` — with
no clamping applied, so the stored points may lie outside
`[0, tile_width] × [0, tile_height]` (see the counterexample). -/
theorem c6_points_translated_not_clamped (x y : Int) (s : String) (pts : List (Int × Int))
    (hp : parsedPoints s = some pts) :
    object_to_points x y s = some (pts.map fun p => (p.1 + x, p.2 + y)) ∧
    (∀ (d : TilesetDoc) (tid : Nat),
      d.tiles = [{ id := tid, objectgroup := [{ x := x, y := y, attr := ObjAttr.poly s }] }] →
      d.properties = none →
      (loadTileset d).map (fun t => t.shapes)
        = Except.ok [(tid, 1, pts.map fun p => (p.1 + x, p.2 + y))]) := by
  have hobj : object_to_points x y s = some (pts.map fun p => (p.1 + x, p.2 + y)) := by
    unfold object_to_points
    have haux := c6_translation_aux x y (splitChar ' ' s.data) []
    simp only [List.map_nil] at haux
    rw [haux]
    unfold parsedPoints at hp
    rw [hp]
    rfl
  refine ⟨hobj, ?_⟩
  intro d tid htiles hprops
  unfold loadTileset
  rw [hprops, htiles]
  simp [extractShapes, hobj, except_pure_bind]
  rfl

/-- Counterexample to C6 as stated: the polygon `"20,-5 0,0 3,3"` at
origin (0,0) on a 16×16 tile is stored verbatim — the point `(20, -5)`
violates both clamping bounds. -/
theorem c6_counterexample :
    (loadTileset exPolyDoc).map (fun t => t.shapes)
      = Except.ok [(0, 1, [(20, -5), (0, 0), (3, 3)])] ∧
    ¬ (∀ p ∈ [((20 : Int), (-5 : Int)), (0, 0), (3, 3)],
        0 ≤ p.1 ∧ p.1 ≤ 16 ∧ 0 ≤ p.2 ∧ p.2 ≤ 16) := by
  exact ⟨rfl, by decide⟩

/-- Witness for C6 (amended) at the counterexample's polygon string. -/
theorem c6_witness :
    parsedPoints "20,-5 0,0 3,3" = some [(20, -5), (0, 0), (3, 3)] ∧
    object_to_points 0 0 "20,-5 0,0 3,3"
      = some ([((20 : Int), (-5 : Int)), (0, 0), (3, 3)].map fun p => (p.1 + 0, p.2 + 0)) := by
  have hp : parsedPoints "20,-5 0,0 3,3" = some [(20, -5), (0, 0), (3, 3)] := rfl
  exact ⟨hp, (c6_points_translated_not_clamped 0 0 _ _ hp).1⟩

/-! ## C8 -/

theorem tileRecordStep_fold_len (si : Nat × Tileset) (m : List (PyKey × List Nat)) :
    ∀ (n : Nat) (st : List TileRec × Nat),
    ((List.range n).foldl (tileRecordStep si m) st).1.length = st.1.length + n := by
  have hstep : ∀ (pr : List TileRec × Nat) (stid : Nat),
      (tileRecordStep si m pr stid).1.length = pr.1.length + 1 := by
    intro pr stid
    simp [tileRecordStep]
  intro n
  induction n with
  | zero => intro st; rfl
  | succ n ih =>
    intro st
    rw [List.range_succ, List.foldl_append]
    show (tileRecordStep si m ((List.range n).foldl (tileRecordStep si m) st) n).1.length = _
    rw [hstep, ih st]
    omega

theorem tileOuter_none (m : List (PyKey × List Nat)) (esets : List (Nat × Tileset)) :
    esets.foldl
      (fun acc si =>
        acc.bind fun st =>
          if si.2.columns = 0 ∧ si.2.tile_count.toNat ≠ 0 then none
          else some ((List.range si.2.tile_count.toNat).foldl (tileRecordStep si m) st))
      none = none := by
  induction esets with
  | nil => rfl
  | cons si rest ih => simpa using ih

theorem tileSets_length :
    ∀ (esets : List (Nat × Tileset)) (m : List (PyKey × List Nat))
      (st res : List TileRec × Nat),
    esets.foldl
      (fun acc si =>
        acc.bind fun st =>
          if si.2.columns = 0 ∧ si.2.tile_count.toNat ≠ 0 then none
          else some ((List.range si.2.tile_count.toNat).foldl (tileRecordStep si m) st))
      (some st) = some res →
    res.1.length = st.1.length + (esets.map fun si => si.2.tile_count.toNat).sum := by
  intro esets
  induction esets with
  | nil =>
    intro m st res h
    cases h
    simp
  | cons si rest ih =>
    intro m st res h
    rw [List.foldl_cons] at h
    by_cases hbad : si.2.columns = 0 ∧ si.2.tile_count.toNat ≠ 0
    · have hred : ((some st).bind fun st =>
          if si.2.columns = 0 ∧ si.2.tile_count.toNat ≠ 0 then none
          else some ((List.range si.2.tile_count.toNat).foldl (tileRecordStep si m) st))
          = none := by
        show (if si.2.columns = 0 ∧ si.2.tile_count.toNat ≠ 0 then none else _) = none
        rw [if_pos hbad]
      rw [hred, tileOuter_none] at h
      cases h
    · have hred : ((some st).bind fun st =>
          if si.2.columns = 0 ∧ si.2.tile_count.toNat ≠ 0 then none
          else some ((List.range si.2.tile_count.toNat).foldl (tileRecordStep si m) st))
          = some ((List.range si.2.tile_count.toNat).foldl (tileRecordStep si m) st) := by
        show (if si.2.columns = 0 ∧ si.2.tile_count.toNat ≠ 0 then none else _) = _
        rw [if_neg hbad]
      rw [hred] at h
      have hres := ih m _ res h
      rw [hres, tileRecordStep_fold_len si m _ st]
      simp
      omega

theorem enumFrom_map_toNat_sum (sets : List Tileset) : ∀ k : Nat,
    ((List.enumFrom k sets).map fun si => si.2.tile_count.toNat).sum
      = (sets.map fun s => s.tile_count.toNat).sum := by
  induction sets with
  | nil => intro k; rfl
  | cons s rest ih => intro k; simp [List.enumFrom, ih]

theorem generateTres_tiles_length (sets : List Tileset) (o : TresOut)
    (h : generateTres sets = some o) :
    o.tiles.length = (sets.map fun s => s.tile_count.toNat).sum := by
  unfold generateTres at h
  cases hc : collisionStep sets with
  | none => rw [hc] at h; cases h
  | some cs =>
    rw [hc, option_some_bind] at h
    cases ht : tileStep sets cs.2.1 with
    | none => rw [ht] at h; cases h
    | some ts =>
      rw [ht, option_some_bind, option_pure] at h
      cases h
      unfold tileStep at ht
      rw [List.enum_eq_enumFrom] at ht
      have hlen := tileSets_length (List.enumFrom 0 sets) cs.2.1 ([], 0) ts ht
      show ts.1.length = _
      rw [hlen, enumFrom_map_toNat_sum sets 0]
      simp

/-- C8 (amended): when a tileset document carries the `hva:tiles`
override with a NON-EMPTY value that parses as the integer `V`, the
loaded tileset's effective `tile_count` is `V` (not the declared
`tilecount` attribute), the serializer iterates exactly `V` tile regions
for it, and the merged offset of the next declared tileset equals `V`;
a non-empty value that does not parse as an integer fails loading with
`InvalidProperty` instead of falling back.  An EMPTY override value —
which does not parse as an integer either — fails the source's
truthiness guard `if self.properties.get("hva:tiles"):` and silently
falls back to the declared tile count (see `c8_counterexample`). -/
theorem c8_tile_count_override (d : TilesetDoc) (props : List (String × String)) (s : String)
    (hprops : d.properties = some props) (hp : dictLookup props "hva:tiles" = some s) :
    (s = "" → ∀ t, loadTileset d = Except.ok t → t.tile_count = (d.tilecount : Int)) ∧
    (s ≠ "" → pyInt? s.data = none →
      loadTileset d = Except.error (ConvError.InvalidProperty "hva:tiles")) ∧
    (s ≠ "" → ∀ V : Int, pyInt? s.data = some V →
      (∀ t, loadTileset d = Except.ok t → t.tile_count = V) ∧
      (∀ t o, loadTileset d = Except.ok t → generateTres [t] = some o →
        o.tiles.length = V.toNat) ∧
      (∀ (fg1 fg2 : Nat) (d2 : TilesetDoc) (l : List TilesetEntry),
        buildTilesetList [(d, fg1), (d2, fg2)] = Except.ok l →
        (l.get? 1).map (fun e => e.optimized_firstgid) = some V)) := by
  have hcount : ∀ V : Int, s ≠ "" → pyInt? s.data = some V → ∀ t, loadTileset d = Except.ok t →
      t.tile_count = V := by
    intro V hs hV t hok
    unfold loadTileset at hok
    rw [hprops] at hok
    simp only [hp, pyTruthy, Option.some_bind, hV] at hok
    rw [if_pos (by simpa using hs)] at hok
    rw [except_pure_bind] at hok
    cases hex : extractShapes d.tiles with
    | none => rw [hex] at hok; cases hok
    | some st =>
      rw [hex] at hok
      cases hok
      rfl
  refine ⟨?_, ?_, ?_⟩
  · intro hse t hok
    subst hse
    unfold loadTileset at hok
    rw [hprops] at hok
    simp only [hp, pyTruthy] at hok
    rw [if_neg (by decide)] at hok
    rw [except_pure_bind] at hok
    cases hex : extractShapes d.tiles with
    | none => rw [hex] at hok; cases hok
    | some st =>
      rw [hex] at hok
      cases hok
      rfl
  · intro hs hnone
    unfold loadTileset
    rw [hprops]
    simp only [hp, pyTruthy, Option.some_bind, hnone]
    rw [if_pos (by simpa using hs)]
    rfl
  · intro hs V hV
    refine ⟨hcount V hs hV, ?_, ?_⟩
    · intro t o hok hg
      rw [generateTres_tiles_length [t] o hg]
      simp [hcount V hs hV t hok]
    · intro fg1 fg2 d2 l hb
      unfold buildTilesetList at hb
      rw [List.foldlM_cons] at hb
      cases hld : loadTileset d with
      | error e =>
        unfold tilesetStep at hb
        rw [hld, except_error_bind, except_error_bind] at hb
        cases hb
      | ok t =>
        unfold tilesetStep at hb
        rw [hld, except_ok_bind, except_pure_bind, List.foldlM_cons] at hb
        cases hld2 : loadTileset d2 with
        | error e =>
          rw [show loadTileset (d2, fg2).1 = Except.error e from hld2, except_error_bind,
            except_error_bind] at hb
          cases hb
        | ok t2 =>
          rw [show loadTileset (d2, fg2).1 = Except.ok t2 from hld2, except_ok_bind,
            except_pure_bind, List.foldlM_nil] at hb
          cases hb
          simp [hcount V hs hV t hld]

/-- Counterexample to C8 as stated: the override value `""` does not
parse as an integer, yet loading succeeds and silently falls back to the
declared tile count 4 — no `InvalidProperty` error is raised. -/
theorem c8_counterexample :
    pyInt? "".data = none ∧
    loadTileset exEmptyOverrideDoc = Except.ok exTileset ∧
    exTileset.tile_count = 4 ∧
    loadTileset exEmptyOverrideDoc ≠ Except.error (ConvError.InvalidProperty "hva:tiles") := by
  have hok : loadTileset exEmptyOverrideDoc = Except.ok exTileset := rfl
  refine ⟨rfl, hok, rfl, ?_⟩
  intro hcontra
  rw [hok] at hcontra
  cases hcontra

/-- Witness for C8: `exOverrideDoc` overrides its declared count 4 with
"7"; `exBadOverrideDoc` carries the non-integer "x7";
`exEmptyOverrideDoc` carries the empty value and falls back to 4. -/
theorem c8_witness :
    exOverrideDoc.properties = some [("hva:tiles", "7")] ∧
    dictLookup [("hva:tiles", "7")] "hva:tiles" = some "7" ∧
    pyInt? "7".data = some 7 ∧
    (∀ t, loadTileset exOverrideDoc = Except.ok t → t.tile_count = 7) ∧
    loadTileset exBadOverrideDoc = Except.error (ConvError.InvalidProperty "hva:tiles") ∧
    exTileset.tile_count = (exEmptyOverrideDoc.tilecount : Int) := by
  refine ⟨rfl, rfl, rfl, ?_, ?_, ?_⟩
  · exact ((c8_tile_count_override exOverrideDoc [("hva:tiles", "7")] "7" rfl rfl).2.2
      (by decide) 7 rfl).1
  · exact (c8_tile_count_override exBadOverrideDoc [("hva:tiles", "x7")] "x7" rfl rfl).2.1
      (by decide) rfl
  · exact (c8_tile_count_override exEmptyOverrideDoc [("hva:tiles", "")] "" rfl rfl).1
      rfl exTileset rfl

/-! ## C9 -/

/-- C9: a tilemap document lacking the `hva:name` or `hva:mode` custom
property (including the case of no `<properties>` element at all) fails to
load with a `MissingProperty` error, and the outcome is computed before
any layer decoding: it does not depend on the document's layers at all. -/
theorem c9_missing_properties_fail_before_layers (d : TilemapDoc)
    (h : dictLookup (d.properties.getD []) "hva:name" = none ∨
         dictLookup (d.properties.getD []) "hva:mode" = none) :
    (∃ p, loadTilemap d = Except.error (ConvError.MissingProperty p)) ∧
    (∀ ls : List LayerEl, loadTilemap { d with layers := ls } = loadTilemap d) := by
  have key : ∃ p, ∀ ls : List LayerEl,
      loadTilemap { d with layers := ls } = Except.error (ConvError.MissingProperty p) := by
    cases hp : d.properties with
    | none =>
      refine ⟨"properties", fun ls => ?_⟩
      unfold loadTilemap
      simp [hp]
    | some props =>
      rw [hp] at h
      simp only [Option.getD_some] at h
      cases hmode : dictLookup props "hva:mode" with
      | none =>
        refine ⟨"hva:mode", fun ls => ?_⟩
        unfold loadTilemap
        simp [hp, hmode, pyTruthy]
      | some v =>
        have hname : dictLookup props "hva:name" = none := by
          rcases h with h1 | h2
          · exact h1
          · rw [hmode] at h2
            cases h2
        by_cases hv : v = ""
        · refine ⟨"hva:mode", fun ls => ?_⟩
          unfold loadTilemap
          simp [hp, hmode, pyTruthy, hv]
        · refine ⟨"hva:name", fun ls => ?_⟩
          unfold loadTilemap
          simp [hp, hmode, hname, pyTruthy, hv]
  obtain ⟨p, hkey⟩ := key
  have hd : loadTilemap d = Except.error (ConvError.MissingProperty p) := by
    have hself := hkey d.layers
    rwa [show ({ d with layers := d.layers } : TilemapDoc) = d from rfl] at hself
  exact ⟨⟨p, hd⟩, fun ls => by rw [hkey ls, hd]⟩

/-- Witness for C9 at the document missing `hva:name`. -/
theorem c9_witness :
    dictLookup (exNoNameDoc.properties.getD []) "hva:name" = none ∧
    loadTilemap { exNoNameDoc with layers := [] } = loadTilemap exNoNameDoc := by
  have h : dictLookup (exNoNameDoc.properties.getD []) "hva:name" = none := rfl
  exact ⟨h, (c9_missing_properties_fail_before_layers exNoNameDoc (Or.inl h)).2 []⟩

/-! ## C10 -/

/-- C10: a rectangle collision object with origin `(x, y)`, width `w` and
height `h` synthesizes exactly
`[(0,0), (0, w−x), (h−y, w−x), (h−y, 0)]` — the first point is the fixed
origin and the coordinates are derived from `h − y` and `w − x` — and
those points, not the rectangle's four corners, are what the loaded
tileset stores; at `x=2, y=3, w=10, h=8` the result differs from the
corner list. -/
theorem c10_square_points (x y w h : Int) :
    square_to_points x y w h = [(0, 0), (0, w - x), (h - y, w - x), (h - y, 0)] ∧
    (∀ (d : TilesetDoc) (tid : Nat),
      d.tiles = [{ id := tid, objectgroup := [{ x := x, y := y, attr := ObjAttr.rect w h }] }] →
      d.properties = none →
      (loadTileset d).map (fun t => t.shapes)
        = Except.ok [(tid, 1, [(0, 0), (0, w - x), (h - y, w - x), (h - y, 0)])]) ∧
    square_to_points 2 3 10 8 = [(0, 0), (0, 8), (5, 8), (5, 0)] ∧
    square_to_points 2 3 10 8 ≠ [(2, 3), (12, 3), (12, 11), (2, 11)] := by
  refine ⟨rfl, ?_, by decide, by decide⟩
  intro d tid htiles hprops
  unfold loadTileset
  rw [hprops, htiles]
  simp [extractShapes, square_to_points, except_pure_bind]
  rfl

/-- Witness for C10 at the spec's concrete rectangle scenario. -/
theorem c10_witness :
    exRectDoc.tiles
      = [{ id := 0, objectgroup := [{ x := 2, y := 3, attr := ObjAttr.rect 10 8 }] }] ∧
    (loadTileset exRectDoc).map (fun t => t.shapes)
      = Except.ok [(0, 1, [(0, 0), (0, 8), (5, 8), (5, 0)])] := by
  have ht : exRectDoc.tiles
      = [{ id := 0, objectgroup := [{ x := 2, y := 3, attr := ObjAttr.rect 10 8 }] }] := rfl
  exact ⟨ht, (c10_square_points 2 3 10 8).2.1 exRectDoc 0 ht rfl⟩

end TiledCore
